import Mathlib

/-!
# Verification of the Realtime-ChatBox backend core

Shallow embedding of `backend/app.py` (the `ConnectionManager` room registry,
the broadcast engine and the `websocket_endpoint` frame router) and of the
token check in `backend/auth.py`.

Modelling conventions:
* A WebSocket connection is identified by a natural number (`Nat`); the
  transport operations `accept`, `send_text`, `send_json`, `close` and the
  persistence call `save_message` are recorded as `Effect`s in the order the
  Python code performs them.
* Python dictionaries (`self.rooms : Dict[str, Dict[str, WebSocket]]`) are
  insertion-ordered association lists.  Assignment `d[k] = v` updates the
  value in place when the key is present and appends otherwise; `del d[k]`
  removes the key; both match CPython dict semantics (keys are unique, so
  update-all/remove-all on an association list agrees with the single-entry
  operation on every state the program can build).
* Whether `await ws.send_text(...)` / `await ws.send_json(...)` succeeds or
  raises is an environment choice, passed in as `sendOk : Nat → Bool`;
  whether `save_message` (the external persistence collaborator) succeeds is
  passed in as `saveOk : Bool`.
* The external `jose.jwt.decode` is passed in as
  `jwtDecode : String → Option (Option String)`: `none` models `JWTError`,
  `some s?` models a decoded payload whose `"sub"` field is `s?`.
-/

namespace ChatBox

/-- `d.get(k)` / `d[k]` on an insertion-ordered dictionary. -/
def getKey? (l : List (String × α)) (k : String) : Option α :=
  match l.find? (fun p => p.1 == k) with
  | some p => some p.2
  | none => none

/-- `k in d`. -/
def hasKey (l : List (String × α)) (k : String) : Bool :=
  (getKey? l k).isSome

/-- `d[k] = v`: update in place when present, append otherwise. -/
def setKey (l : List (String × α)) (k : String) (v : α) : List (String × α) :=
  if hasKey l k then l.map (fun p => if p.1 == k then (k, v) else p)
  else l ++ [(k, v)]

/-- `del d[k]`. -/
def delKey (l : List (String × α)) (k : String) : List (String × α) :=
  l.filter (fun p => !(p.1 == k))

/-- Number of entries stored under key `k` (1 on every real dictionary state). -/
def countKey (l : List (String × α)) (k : String) : Nat :=
  (l.filter (fun p => p.1 == k)).length

/-- Observable actions the backend performs on connections and collaborators. -/
inductive Effect where
  /-- `await websocket.accept()` -/
  | accept (ws : Nat)
  /-- `await ws.send_text(text)` that succeeded -/
  | send (ws : Nat) (text : String)
  /-- `await ws.send_json({"type": "user_list", "users": users})` that succeeded -/
  | sendUserList (ws : Nat) (users : List String)
  /-- `await websocket.close(code=code)` -/
  | close (ws : Nat) (code : Nat)
  /-- `save_message(room, username, content)`, i.e. one persistence record
      `record(room, username, content, datetime.utcnow())` (the timestamp is
      produced inside `save_message` and is abstracted away) -/
  | save (room username content : String)
deriving DecidableEq, Repr

/-- `ConnectionManager.__init__`: `self.rooms = {}`, a map
`room → (username → websocket)`. -/
structure ConnectionManager where
  rooms : List (String × List (String × Nat))
deriving DecidableEq, Repr

/-- `ConnectionManager.connect` (app.py 44-50): accept the socket, create the
room entry when absent, then `self.rooms[room][username] = websocket`. -/
def connect (m : ConnectionManager) (websocket : Nat) (room username : String) :
    ConnectionManager × List Effect :=
  let rooms1 := if hasKey m.rooms room then m.rooms else m.rooms ++ [(room, [])]
  let members := (getKey? rooms1 room).getD []
  (⟨setKey rooms1 room (setKey members username websocket)⟩, [Effect.accept websocket])

/-- `ConnectionManager.disconnect` (app.py 52-57): delete the username's entry
when present, and delete the room when its mapping becomes empty.  The
`websocket` argument is accepted but never used, exactly as in the source. -/
def disconnect (m : ConnectionManager) (websocket : Nat) (room username : String) :
    ConnectionManager :=
  match getKey? m.rooms room with
  | none => m
  | some members =>
    if hasKey members username then
      let members' := delKey members username
      if members' = [] then ⟨delKey m.rooms room⟩
      else ⟨setKey m.rooms room members'⟩
    else m

/-- `ConnectionManager.broadcast` (app.py 59-70): send `message` to every
member, collecting usernames whose send raised into `dead`, then delete each
dead username from the room's mapping.  The room entry itself is never
deleted here, even when every member was dead. -/
def broadcast (m : ConnectionManager) (room message : String) (sendOk : Nat → Bool) :
    ConnectionManager × List Effect :=
  match getKey? m.rooms room with
  | none => (m, [])
  | some members =>
    let effs := members.filterMap fun p =>
      if sendOk p.2 then some (Effect.send p.2 message) else none
    let dead := members.filterMap fun p =>
      if sendOk p.2 then none else some p.1
    let members' := dead.foldl (fun acc u => delKey acc u) members
    (⟨setKey m.rooms room members'⟩, effs)

/-- The loop `for ws in self.rooms[room].values(): await ws.send_json(payload)`
of `broadcast_user_list`: sends are attempted in order with no `try`/`except`,
so the first failing send raises and aborts the remaining sends.  Returns the
successful sends and the websocket whose send raised, if any. -/
def sendUserListAll (conns : List Nat) (users : List String) (sendOk : Nat → Bool) :
    List Effect × Option Nat :=
  match conns with
  | [] => ([], none)
  | ws :: rest =>
    if sendOk ws then
      let r := sendUserListAll rest users sendOk
      (Effect.sendUserList ws users :: r.1, r.2)
    else ([], some ws)

/-- `ConnectionManager.broadcast_user_list` (app.py 72-84): return early when
the room is absent, otherwise send the current username list to every member.
No eviction and no error handling happen here; a raised send propagates
(third component `some ws`). -/
def broadcast_user_list (m : ConnectionManager) (room : String) (sendOk : Nat → Bool) :
    ConnectionManager × List Effect × Option Nat :=
  match getKey? m.rooms room with
  | none => (m, [], none)
  | some members =>
    let r := sendUserListAll (members.map (fun p => p.2)) (members.map (fun p => p.1)) sendOk
    (m, r.1, r.2)

/-- `auth.decode_token` (auth.py 41-49): `jwt.decode` then `payload.get("sub")`;
`None` on `JWTError` or on a missing subject.  `jwtDecode token = none` models
`jwt.decode` raising `JWTError`; `some s?` models a payload whose `"sub"`
field is `s?`. -/
def decode_token (jwtDecode : String → Option (Option String)) (token : String) :
    Option String :=
  match jwtDecode token with
  | none => none
  | some s? => s?

/-- Outcome of `json.loads(message)` followed by `payload.get("type")` inside
the receive loop (app.py 190-207).  `decodeError`: `json.loads` raised
(caught by the bare `except`).  `nonObject`: `json.loads` succeeded but
produced a non-dict (number, string, array, null), so `payload.get` raised
`AttributeError` — also caught by the bare `except`.  `object t?`: a dict
whose `"type"` field is the string `t` (`some t`), or is absent or not a
string (`none`; a non-string `type` value compares unequal to `"typing"` and
`"stop_typing"` just like an absent one). -/
inductive DecodeOutcome where
  | decodeError
  | nonObject
  | object (typeField : Option String)
deriving DecidableEq, Repr

/-- `json.dumps({"type": "typing", "username": username})` with default
separators; quotes and backslashes in `username` are escaped as `json.dumps`
does (other escapes do not occur in the inputs considered here). -/
def jsonEscape (s : String) : String :=
  String.join (s.data.map fun c =>
    if c = '"' then "\\\"" else if c = '\\' then "\\\\" else String.singleton c)

/-- The typing event payload broadcast at app.py 195-198. -/
def mkTypingMsg (username : String) : String :=
  "\x7b\"type\": \"typing\", \"username\": \"" ++ jsonEscape username ++ "\"\x7d"

/-- The stop-typing event payload broadcast at app.py 203-206. -/
def mkStopTypingMsg (username : String) : String :=
  "\x7b\"type\": \"stop_typing\", \"username\": \"" ++ jsonEscape username ++ "\"\x7d"

/-- The chat notice `f"{username}: {message}"` (app.py 214). -/
def chatMsg (username message : String) : String :=
  username ++ ": " ++ message

/-- One iteration of the receive loop (app.py 186-214), after
`message = await websocket.receive_text()` returned `message` and the
decode attempt had outcome `d`:
* `type == "typing"`: broadcast the typing payload and `continue`;
* `type == "stop_typing"`: broadcast the stop-typing payload and `continue`;
* otherwise (decode failure, non-dict, absent or unrecognized type):
  `save_message(room, username, message)` then broadcast
  `f"{username}: {message}"`.
Result: the manager state, the effects in order, and whether the iteration
raised an exception that the loop's `try`/`except WebSocketDisconnect`
does not catch (`save_message` raising when `saveOk = false`: the broadcast
on line 214 is never reached and the exception escapes the handler). -/
def handleFrame (m : ConnectionManager) (room username message : String)
    (d : DecodeOutcome) (saveOk : Bool) (sendOk : Nat → Bool) :
    ConnectionManager × List Effect × Bool :=
  let isTyping := match d with
    | DecodeOutcome.object (some t) => t == "typing"
    | _ => false
  let isStopTyping := match d with
    | DecodeOutcome.object (some t) => t == "stop_typing"
    | _ => false
  if isTyping then
    let r := broadcast m room (mkTypingMsg username) sendOk
    (r.1, r.2, false)
  else if isStopTyping then
    let r := broadcast m room (mkStopTypingMsg username) sendOk
    (r.1, r.2, false)
  else if saveOk then
    let r := broadcast m room (chatMsg username message) sendOk
    (r.1, Effect.save room username message :: r.2, false)
  else
    (m, [], true)

/-- The join notice `f"ðŸŸ¢ {username} joined room: {room}"` (app.py 182).
The source file stores the status marker as the four characters
U+00F0 U+0178 U+0178 U+00A2 followed by a space. -/
def joinNotice (username room : String) : String :=
  "ðŸŸ¢ " ++ username ++ " joined room: " ++ room

/-- The leave notice `f"ðŸ”´ {username} left room: {room}"` (app.py 218).
The source file stores the status marker as the four characters
U+00F0 U+0178 U+201D U+00B4 followed by a space. -/
def leaveNotice (username room : String) : String :=
  "ðŸ”´ " ++ username ++ " left room: " ++ room

/-- `websocket_endpoint` up to the start of the receive loop
(app.py 169-183): extract the token from the query string (`token?`; an
absent parameter gives `none`), reject with `close(code=1008)` when
`not token or decode_token(token) != username` (Python's `not token` is
true for both `None` and the empty string), otherwise run
`manager.connect`, broadcast the join notice and broadcast the user list.
The third component is the websocket whose `send_json` raised during
`broadcast_user_list`, if any (that exception propagates out of the
endpoint). -/
def websocket_endpoint_start (m : ConnectionManager) (websocket : Nat)
    (token? : Option String) (jwtDecode : String → Option (Option String))
    (room username : String) (sendOk : Nat → Bool) :
    ConnectionManager × List Effect × Option Nat :=
  let falsy := match token? with
    | none => true
    | some t => t == ""
  let decoded := match token? with
    | none => none
    | some t => decode_token jwtDecode t
  if falsy || !(decoded == some username) then
    (m, [Effect.close websocket 1008], none)
  else
    let c := connect m websocket room username
    let b := broadcast c.1 room (joinNotice username room) sendOk
    let u := broadcast_user_list b.1 room sendOk
    (u.1, c.2 ++ b.2 ++ u.2.1, u.2.2)

/-- The `except WebSocketDisconnect` handler (app.py 216-219):
`manager.disconnect`, broadcast the leave notice, broadcast the user list. -/
def websocket_endpoint_on_disconnect (m : ConnectionManager) (websocket : Nat)
    (room username : String) (sendOk : Nat → Bool) :
    ConnectionManager × List Effect × Option Nat :=
  let m1 := disconnect m websocket room username
  let b := broadcast m1 room (leaveNotice username room) sendOk
  let u := broadcast_user_list b.1 room sendOk
  (u.1, b.2 ++ u.2.1, u.2.2)

/-- The websocket stored for `username` in `room`, if any. -/
def memberConn (m : ConnectionManager) (room username : String) : Option Nat :=
  match getKey? m.rooms room with
  | none => none
  | some members => getKey? members username

/-- No room entry has an empty member mapping. -/
def noEmptyRooms (m : ConnectionManager) : Prop :=
  ∀ p ∈ m.rooms, p.2 ≠ []

/-- Every room's member mapping has pairwise distinct usernames (true of
every state reachable through the dictionary operations). -/
def wfRooms (m : ConnectionManager) : Prop :=
  ∀ p ∈ m.rooms, (p.2.map Prod.fst).Nodup

/-! ## Dictionary lemmas -/

theorem getKey?_cons (p : String × α) (l : List (String × α)) (k : String) :
    getKey? (p :: l) k = if p.1 == k then some p.2 else getKey? l k := by
  cases h : p.1 == k <;> simp [getKey?, List.find?_cons, h]

theorem hasKey_cons (p : String × α) (l : List (String × α)) (k : String) :
    hasKey (p :: l) k = (p.1 == k || hasKey l k) := by
  unfold hasKey
  rw [getKey?_cons]
  cases h : p.1 == k <;> simp [h]

theorem hasKey_eq_false_iff (l : List (String × α)) (k : String) :
    hasKey l k = false ↔ ∀ p ∈ l, (p.1 == k) = false := by
  induction l with
  | nil => simp [hasKey, getKey?]
  | cons p tl ih =>
    rw [hasKey_cons]
    constructor
    · intro h q hq
      rcases List.mem_cons.mp hq with rfl | hq
      · cases hpk : q.1 == k
        · rfl
        · rw [hpk] at h
          cases h
      · cases hpk : p.1 == k
        · rw [hpk, Bool.false_or] at h
          exact (ih.mp h) q hq
        · rw [hpk] at h
          cases h
    · intro h
      have hp := h p (List.mem_cons_self p tl)
      rw [hp, Bool.false_or]
      exact ih.mpr fun q hq => h q (List.mem_cons_of_mem p hq)

theorem getKey?_map_upd (l : List (String × α)) (k : String) (v : α) :
    getKey? (l.map fun p => if p.1 == k then (k, v) else p) k =
      if hasKey l k then some v else none := by
  induction l with
  | nil => simp [getKey?, hasKey]
  | cons p tl ih =>
    simp only [List.map_cons, getKey?_cons, hasKey_cons]
    cases h : p.1 == k
    · rw [if_neg (by simp [h]), ih, Bool.false_or]
    · simp [h]

theorem getKey?_append_single (l : List (String × α)) (k : String) (v : α)
    (h : hasKey l k = false) : getKey? (l ++ [(k, v)]) k = some v := by
  induction l with
  | nil => simp [getKey?, List.find?_cons]
  | cons p tl ih =>
    rw [hasKey_cons] at h
    cases hp : p.1 == k
    · rw [hp, Bool.false_or] at h
      rw [List.cons_append, getKey?_cons, if_neg (by simp [hp])]
      exact ih h
    · rw [hp] at h
      simp at h

theorem getKey?_setKey_self (l : List (String × α)) (k : String) (v : α) :
    getKey? (setKey l k v) k = some v := by
  unfold setKey
  cases h : hasKey l k
  · rw [if_neg (by simp [h])]
    exact getKey?_append_single l k v h
  · rw [if_pos (by simp [h]), getKey?_map_upd, if_pos (by simp [h])]

theorem mem_setKey {p : String × α} {l : List (String × α)} {k : String} {v : α}
    (hp : p ∈ setKey l k v) : p = (k, v) ∨ (p ∈ l ∧ (p.1 == k) = false) := by
  unfold setKey at hp
  cases h : hasKey l k
  · rw [if_neg (by simp [h])] at hp
    rcases List.mem_append.mp hp with hp | hp
    · right
      refine ⟨hp, ?_⟩
      cases hpk : p.1 == k
      · rfl
      · have := (hasKey_eq_false_iff l k).mp h p hp
        rw [hpk] at this
        cases this
    · left
      simpa using hp
  · rw [if_pos (by simp [h])] at hp
    obtain ⟨q, hq, hfq⟩ := List.mem_map.mp hp
    cases hqk : q.1 == k
    · right
      rw [if_neg (by simp [hqk])] at hfq
      exact ⟨hfq ▸ hq, hfq ▸ hqk⟩
    · left
      rw [if_pos (by simp [hqk])] at hfq
      exact hfq.symm

theorem setKey_ne_nil (l : List (String × α)) (k : String) (v : α) :
    setKey l k v ≠ [] := by
  unfold setKey
  cases h : hasKey l k
  · simp
  · cases l with
    | nil => simp [hasKey, getKey?] at h
    | cons p tl => simp

theorem getKey?_delKey_self (l : List (String × α)) (k : String) :
    getKey? (delKey l k) k = none := by
  unfold getKey?
  rcases hfind : (delKey l k).find? (fun p => p.1 == k) with _ | q
  · rw [hfind]
  · have hq := List.find?_some hfind
    have hmem := List.mem_of_find?_eq_some hfind
    have := List.of_mem_filter hmem
    simp [hq] at this

theorem mem_delKey {p : String × α} {l : List (String × α)} {k : String}
    (hp : p ∈ delKey l k) : p ∈ l :=
  List.mem_of_mem_filter hp

theorem getKey?_delKey_none {l : List (String × α)} {u : String} (k : String)
    (h : getKey? l u = none) : getKey? (delKey l k) u = none := by
  unfold getKey? at h ⊢
  rcases hfind : (delKey l k).find? (fun p => p.1 == u) with _ | q
  · rw [hfind]
  · exfalso
    have hq := List.find?_some hfind
    have hmem := mem_delKey (List.mem_of_find?_eq_some hfind)
    rcases hfl : l.find? (fun p => p.1 == u) with _ | w
    · have := List.find?_eq_none.mp hfl q hmem
      simp [hq] at this
    · rw [hfl] at h
      cases h

theorem getKey?_foldl_delKey_none (ds : List String) (l : List (String × Nat))
    (u : String) (h : getKey? l u = none) :
    getKey? (ds.foldl (fun acc x => delKey acc x) l) u = none := by
  induction ds generalizing l with
  | nil => simpa using h
  | cons d tl ih => exact ih (delKey l d) (getKey?_delKey_none d h)

theorem getKey?_foldl_delKey (ds : List String) (l : List (String × Nat)) (u : String)
    (hu : u ∈ ds) : getKey? (ds.foldl (fun acc x => delKey acc x) l) u = none := by
  induction ds generalizing l with
  | nil => cases hu
  | cons d tl ih =>
    rcases List.mem_cons.mp hu with rfl | hmem
    · exact getKey?_foldl_delKey_none tl (delKey l u) u (getKey?_delKey_self l u)
    · exact ih (delKey l d) hmem

theorem getKey?_mem {l : List (String × α)} {k : String} {v : α}
    (h : getKey? l k = some v) : (k, v) ∈ l := by
  unfold getKey? at h
  rcases hfind : l.find? (fun p => p.1 == k) with _ | p
  · rw [hfind] at h
    cases h
  · rw [hfind] at h
    have hpk := List.find?_some hfind
    have hmem := List.mem_of_find?_eq_some hfind
    injection h with h2
    have h1 : p.1 = k := by simpa using hpk
    have hp : p = (k, v) := Prod.ext h1 h2
    exact hp ▸ hmem

theorem countKey_eq_zero_of_hasKey_false (l : List (String × α)) (k : String)
    (h : hasKey l k = false) : countKey l k = 0 := by
  unfold countKey
  rw [List.length_eq_zero, List.filter_eq_nil_iff]
  intro p hp
  simp [(hasKey_eq_false_iff l k).mp h p hp]

theorem countKey_map_upd (l : List (String × α)) (k : String) (v : α) :
    countKey (l.map fun p => if p.1 == k then (k, v) else p) k = countKey l k := by
  unfold countKey
  rw [List.filter_map, List.length_map]
  congr 1
  apply List.filter_congr
  intro q hq
  simp only [Function.comp]
  cases hqk : q.1 == k
  · rw [if_neg (by simp [hqk]), hqk]
  · rw [if_pos (by simpa using hqk)]
    simp [hqk]

theorem countKey_of_hasKey_nodup (l : List (String × α)) (k : String)
    (hk : hasKey l k = true) (hnd : (l.map Prod.fst).Nodup) : countKey l k = 1 := by
  induction l with
  | nil => cases hk
  | cons p tl ih =>
    rw [hasKey_cons] at hk
    rw [List.map_cons, List.nodup_cons] at hnd
    cases hpk : p.1 == k
    · rw [hpk, Bool.false_or] at hk
      unfold countKey
      rw [List.filter_cons, if_neg (by simp [hpk])]
      exact ih hk hnd.2
    · unfold countKey
      rw [List.filter_cons, if_pos (by simp [hpk])]
      have hke : p.1 = k := by simpa using hpk
      have hz : countKey tl k = 0 := by
        apply countKey_eq_zero_of_hasKey_false
        rw [hasKey_eq_false_iff]
        intro q hq
        cases hqk : q.1 == k
        · rfl
        · exfalso
          have hqe : q.1 = k := by simpa using hqk
          exact hnd.1 (hke ▸ hqe ▸ (List.mem_map.mpr ⟨q, hq, rfl⟩))
      unfold countKey at hz
      simp [hz]

/-! ## Equation lemmas for the registry operations -/

theorem connect_eq (m : ConnectionManager) (websocket : Nat) (room username : String) :
    connect m websocket room username =
      (⟨setKey (if hasKey m.rooms room then m.rooms else m.rooms ++ [(room, [])]) room
          (setKey ((getKey? (if hasKey m.rooms room then m.rooms
              else m.rooms ++ [(room, [])]) room).getD []) username websocket)⟩,
       [Effect.accept websocket]) := rfl

theorem disconnect_eq_absent {m : ConnectionManager} {websocket : Nat}
    {room username : String} (h : getKey? m.rooms room = none) :
    disconnect m websocket room username = m := by
  unfold disconnect
  rw [h]

theorem disconnect_eq_present {m : ConnectionManager} {websocket : Nat}
    {room username : String} {members : List (String × Nat)}
    (h : getKey? m.rooms room = some members) :
    disconnect m websocket room username =
      (if hasKey members username then
        if delKey members username = [] then (⟨delKey m.rooms room⟩ : ConnectionManager)
        else ⟨setKey m.rooms room (delKey members username)⟩
      else m) := by
  unfold disconnect
  rw [h]

theorem broadcast_eq_absent {m : ConnectionManager} {room message : String}
    {sendOk : Nat → Bool} (h : getKey? m.rooms room = none) :
    broadcast m room message sendOk = (m, []) := by
  unfold broadcast
  rw [h]

theorem broadcast_eq_present {m : ConnectionManager} {room message : String}
    {sendOk : Nat → Bool} {members : List (String × Nat)}
    (h : getKey? m.rooms room = some members) :
    broadcast m room message sendOk =
      (⟨setKey m.rooms room
          ((members.filterMap fun p => if sendOk p.2 then none else some p.1).foldl
            (fun acc u => delKey acc u) members)⟩,
       members.filterMap fun p =>
         if sendOk p.2 then some (Effect.send p.2 message) else none) := by
  unfold broadcast
  rw [h]

theorem broadcast_user_list_eq_absent {m : ConnectionManager} {room : String}
    {sendOk : Nat → Bool} (h : getKey? m.rooms room = none) :
    broadcast_user_list m room sendOk = (m, [], none) := by
  unfold broadcast_user_list
  rw [h]

theorem broadcast_user_list_eq_present {m : ConnectionManager} {room : String}
    {sendOk : Nat → Bool} {members : List (String × Nat)}
    (h : getKey? m.rooms room = some members) :
    broadcast_user_list m room sendOk =
      (m, (sendUserListAll (members.map fun p => p.2) (members.map fun p => p.1) sendOk).1,
       (sendUserListAll (members.map fun p => p.2) (members.map fun p => p.1) sendOk).2) := by
  unfold broadcast_user_list
  rw [h]

/-! ## Broadcast behaviour lemmas -/

/-- Every effect a plain-text broadcast produces is a successful send of the
broadcast message itself: no close, no save, no synthetic notice. -/
theorem broadcast_effects_are_sends {m : ConnectionManager} {room message : String}
    {sendOk : Nat → Bool} {e : Effect} (he : e ∈ (broadcast m room message sendOk).2) :
    ∃ ws, e = Effect.send ws message := by
  rcases hg : getKey? m.rooms room with _ | members
  · rw [broadcast_eq_absent hg] at he
    cases he
  · rw [broadcast_eq_present hg] at he
    obtain ⟨p, _, hfp⟩ := List.mem_filterMap.mp he
    cases hok : sendOk p.2
    · rw [if_neg (by simp [hok])] at hfp
      cases hfp
    · rw [if_pos (by simpa using hok)] at hfp
      injection hfp with hfp
      exact ⟨p.2, hfp.symm⟩

/-- A member whose send succeeds receives the message, regardless of how many
other members' sends fail: the per-member `try`/`except` contains each
failure. -/
theorem broadcast_delivers {m : ConnectionManager} {room message : String}
    {sendOk : Nat → Bool} {members : List (String × Nat)} {p : String × Nat}
    (hg : getKey? m.rooms room = some members) (hp : p ∈ members)
    (hok : sendOk p.2 = true) :
    Effect.send p.2 message ∈ (broadcast m room message sendOk).2 := by
  rw [broadcast_eq_present hg]
  exact List.mem_filterMap.mpr ⟨p, hp, by rw [if_pos (by simpa using hok)]⟩

/-- A member whose send fails is deleted from the room's mapping by the
clean-up loop at the end of `broadcast`. -/
theorem broadcast_evicts {m : ConnectionManager} {room message : String}
    {sendOk : Nat → Bool} {members : List (String × Nat)} {p : String × Nat}
    (hg : getKey? m.rooms room = some members) (hp : p ∈ members)
    (hbad : sendOk p.2 = false) :
    memberConn (broadcast m room message sendOk).1 room p.1 = none := by
  rw [broadcast_eq_present hg]
  unfold memberConn
  simp only [getKey?_setKey_self]
  apply getKey?_foldl_delKey
  exact List.mem_filterMap.mpr ⟨p, hp, by rw [if_neg (by simp [hbad])]⟩

/-- `broadcast` never removes the room entry, even when every member is dead. -/
theorem broadcast_keeps_room {m : ConnectionManager} {room message : String}
    {sendOk : Nat → Bool} {members : List (String × Nat)}
    (hg : getKey? m.rooms room = some members) :
    hasKey (broadcast m room message sendOk).1.rooms room = true := by
  rw [broadcast_eq_present hg]
  unfold hasKey
  simp [getKey?_setKey_self]

theorem sendUserListAll_cons (ws : Nat) (rest : List Nat) (users : List String)
    (sendOk : Nat → Bool) :
    sendUserListAll (ws :: rest) users sendOk =
      if sendOk ws then
        (Effect.sendUserList ws users :: (sendUserListAll rest users sendOk).1,
         (sendUserListAll rest users sendOk).2)
      else ([], some ws) := rfl

/-- The `send_json` loop of `broadcast_user_list` delivers in order and stops
at the first failing connection: everything after it receives nothing. -/
theorem sendUserListAll_abort (pre : List Nat) (w : Nat) (post : List Nat)
    (users : List String) (sendOk : Nat → Bool)
    (hpre : ∀ c ∈ pre, sendOk c = true) (hw : sendOk w = false) :
    sendUserListAll (pre ++ w :: post) users sendOk =
      (pre.map fun c => Effect.sendUserList c users, some w) := by
  induction pre with
  | nil =>
    rw [List.nil_append, sendUserListAll_cons, if_neg (by simp [hw])]
    rfl
  | cons c tl ih =>
    have hc : sendOk c = true := hpre c (List.mem_cons_self c tl)
    rw [List.cons_append, sendUserListAll_cons, if_pos hc,
      ih fun x hx => hpre x (List.mem_cons_of_mem c hx)]
    rfl

/-- When every send succeeds, `broadcast_user_list`'s loop sends the user list
to every connection in order. -/
theorem sendUserListAll_ok (conns : List Nat) (users : List String)
    (sendOk : Nat → Bool) (h : ∀ c ∈ conns, sendOk c = true) :
    sendUserListAll conns users sendOk =
      (conns.map fun c => Effect.sendUserList c users, none) := by
  induction conns with
  | nil => rfl
  | cons c tl ih =>
    have hc : sendOk c = true := h c (List.mem_cons_self c tl)
    rw [sendUserListAll_cons, if_pos hc, ih fun x hx => h x (List.mem_cons_of_mem c hx)]
    rfl

theorem getKey?_eq_none_of_hasKey_false {l : List (String × α)} {k : String}
    (h : hasKey l k = false) : getKey? l k = none := by
  unfold hasKey at h
  rcases hg : getKey? l k with _ | v
  · rfl
  · rw [hg] at h
    cases h

theorem countKey_setKey_self (l : List (String × α)) (k : String) (v : α)
    (hnd : (l.map Prod.fst).Nodup) : countKey (setKey l k v) k = 1 := by
  unfold setKey
  cases h : hasKey l k
  · rw [if_neg (by simp [h])]
    have hz := countKey_eq_zero_of_hasKey_false l k h
    unfold countKey at hz ⊢
    rw [List.filter_append, List.length_append, hz, List.filter_cons]
    simp
  · rw [if_pos (by simp [h]), countKey_map_upd]
    exact countKey_of_hasKey_nodup l k h hnd

/-- The member mapping `connect` reads for the target room (empty when the
room entry was just created) has pairwise distinct usernames on every
well-formed state. -/
theorem connect_members_nodup {m : ConnectionManager} (hwf : wfRooms m) (room : String) :
    ((getKey? (if hasKey m.rooms room then m.rooms else m.rooms ++ [(room, [])])
        room).getD [] |>.map Prod.fst).Nodup := by
  rcases hg : getKey? (if hasKey m.rooms room then m.rooms
      else m.rooms ++ [(room, [])]) room with _ | mem
  · simp
  · simp only [Option.getD_some]
    have hmem := getKey?_mem hg
    by_cases h : hasKey m.rooms room = true
    · rw [if_pos h] at hmem
      exact hwf (room, mem) hmem
    · rw [if_neg h] at hmem
      rcases List.mem_append.mp hmem with hmem | hmem
      · exact hwf (room, mem) hmem
      · have := List.mem_singleton.mp hmem
        injection this with _ h2
        rw [h2]
        simp

/-- Claim C1 counterexample: with `alice` already present in room `r` on
websocket 7, a second `connect` for `alice` on websocket 9 produces only the
`accept` of the new socket — no `close` of websocket 7 with a "replaced"
status (or any close at all) is ever issued — while the stored member is
silently overwritten to websocket 9. -/
theorem C1_counterexample :
    (connect ⟨[("r", [("alice", 7)])]⟩ 9 "r" "alice").2 = [Effect.accept 9] ∧
    (connect ⟨[("r", [("alice", 7)])]⟩ 9 "r" "alice").1 =
      (⟨[("r", [("alice", 9)])]⟩ : ConnectionManager) :=
  ⟨rfl, rfl⟩

/-- Claim C1 (amended): a join (`ConnectionManager.connect`) while a Member
with that username already exists in the room supersedes the old Member by
overwriting the stored websocket in place: exactly one member for that
username survives and its connection is the new websocket.  The old
connection is not closed: `connect`'s only transport effect is accepting the
new websocket (no close with a "replaced" status exists in the code). -/
theorem C1_connect_supersedes (m : ConnectionManager) (ws : Nat)
    (room username : String) (hwf : wfRooms m) :
    (connect m ws room username).2 = [Effect.accept ws] ∧
    memberConn (connect m ws room username).1 room username = some ws ∧
    countKey ((getKey? (connect m ws room username).1.rooms room).getD []) username = 1 := by
  refine ⟨rfl, ?_, ?_⟩
  · unfold memberConn
    rw [connect_eq]
    simp only [getKey?_setKey_self]
  · rw [connect_eq]
    simp only [getKey?_setKey_self, Option.getD_some]
    exact countKey_setKey_self _ username ws (connect_members_nodup hwf room)

/-- Claim C1 witness: the amended theorem evaluated at the counterexample
state. -/
theorem C1_connect_supersedes_witness :
    (connect ⟨[("r", [("alice", 7)])]⟩ 9 "r" "alice").2 = [Effect.accept 9] ∧
    memberConn (connect ⟨[("r", [("alice", 7)])]⟩ 9 "r" "alice").1 "r" "alice" = some 9 ∧
    countKey ((getKey? (connect ⟨[("r", [("alice", 7)])]⟩ 9 "r" "alice").1.rooms
      "r").getD []) "alice" = 1 :=
  C1_connect_supersedes ⟨[("r", [("alice", 7)])]⟩ 9 "r" "alice"
    (by unfold wfRooms; decide)

/-- Claim C2 counterexample: `alice` is registered in room `r` with stored
websocket 7, yet `disconnect` called with the different websocket 9 still
removes her (and the now-empty room), although the claim says the registry
must be left unchanged when the stored connection differs. -/
theorem C2_counterexample :
    disconnect ⟨[("r", [("alice", 7)])]⟩ 9 "r" "alice" = (⟨[]⟩ : ConnectionManager) ∧
    (⟨[]⟩ : ConnectionManager) ≠ (⟨[("r", [("alice", 7)])]⟩ : ConnectionManager) :=
  ⟨rfl, by decide⟩

/-- Claim C2 (amended): `ConnectionManager.disconnect` removes the Member for
the given username whenever one is present, regardless of which connection is
passed: the `websocket` argument is ignored (the result is identical for any
two websockets), and after the call no member is stored for that username in
that room. -/
theorem C2_disconnect_ignores_connection (m : ConnectionManager) (ws ws' : Nat)
    (room username : String) :
    disconnect m ws room username = disconnect m ws' room username ∧
    memberConn (disconnect m ws room username) room username = none := by
  refine ⟨rfl, ?_⟩
  rcases hg : getKey? m.rooms room with _ | members
  · rw [disconnect_eq_absent hg]
    unfold memberConn
    rw [hg]
  · rw [disconnect_eq_present hg]
    cases hh : hasKey members username
    · rw [if_neg (by simp [hh])]
      unfold memberConn
      rw [hg]
      exact getKey?_eq_none_of_hasKey_false hh
    · rw [if_pos (by simp [hh])]
      by_cases hnil : delKey members username = []
      · rw [if_pos hnil]
        unfold memberConn
        simp only [getKey?_delKey_self]
      · rw [if_neg hnil]
        unfold memberConn
        simp only [getKey?_setKey_self]
        exact getKey?_delKey_self members username

/-- Claim C3 counterexample: room `r` holds only `alice`, whose connection is
dead; a `broadcast` evicts her but leaves the room entry behind with an empty
member mapping, violating the claimed invariant that no room entry with an
empty member mapping exists after any registry operation. -/
theorem C3_counterexample :
    (broadcast ⟨[("r", [("alice", 7)])]⟩ "r" "hi" (fun _ => false)).1 =
      (⟨[("r", [])]⟩ : ConnectionManager) ∧
    ("r", ([] : List (String × Nat))) ∈
      (broadcast ⟨[("r", [("alice", 7)])]⟩ "r" "hi" (fun _ => false)).1.rooms :=
  ⟨rfl, List.mem_singleton.mpr rfl⟩

/-- Claim C3 (amended): `connect` and `disconnect` preserve the invariant that
no room entry has an empty member mapping, and `disconnect` of the last
member removes the room entry itself; but `broadcast`'s inline eviction never
removes the room entry, so evicting the last dead member leaves an empty
room entry behind. -/
theorem C3_room_lifecycle (m : ConnectionManager) (ws w : Nat)
    (room username message : String) (sendOk : Nat → Bool) (h : noEmptyRooms m) :
    noEmptyRooms (connect m ws room username).1 ∧
    noEmptyRooms (disconnect m ws room username) ∧
    (getKey? m.rooms room = some [(username, w)] →
      getKey? (disconnect m ws room username).rooms room = none) ∧
    (hasKey m.rooms room = true →
      hasKey (broadcast m room message sendOk).1.rooms room = true) := by
  refine ⟨?_, ?_, ?_, ?_⟩
  · rw [connect_eq]
    intro p hp
    rcases mem_setKey hp with rfl | ⟨hp, hpk⟩
    · exact setKey_ne_nil _ username ws
    · by_cases hr : hasKey m.rooms room = true
      · rw [if_pos hr] at hp
        exact h p hp
      · rw [if_neg hr] at hp
        rcases List.mem_append.mp hp with hp | hp
        · exact h p hp
        · have := List.mem_singleton.mp hp
          rw [this] at hpk
          simp at hpk
  · rcases hg : getKey? m.rooms room with _ | members
    · rw [disconnect_eq_absent hg]
      exact h
    · rw [disconnect_eq_present hg]
      cases hh : hasKey members username
      · rw [if_neg (by simp [hh])]
        exact h
      · rw [if_pos (by simp [hh])]
        by_cases hnil : delKey members username = []
        · rw [if_pos hnil]
          intro p hp
          exact h p (mem_delKey hp)
        · rw [if_neg hnil]
          intro p hp
          rcases mem_setKey hp with rfl | ⟨hp, _⟩
          · exact hnil
          · exact h p hp
  · intro hg
    rw [disconnect_eq_present hg]
    rw [if_pos (by simp [hasKey_cons]), if_pos (by simp [delKey])]
    exact getKey?_delKey_self m.rooms room
  · intro hr
    rcases hg : getKey? m.rooms room with _ | members
    · unfold hasKey at hr
      rw [hg] at hr
      cases hr
    · exact broadcast_keeps_room hg

/-- Claim C3 witness: the amended theorem evaluated on a one-member room. -/
theorem C3_room_lifecycle_witness :
    noEmptyRooms (connect ⟨[("r", [("alice", 7)])]⟩ 7 "r" "alice").1 ∧
    noEmptyRooms (disconnect ⟨[("r", [("alice", 7)])]⟩ 7 "r" "alice") ∧
    (getKey? (⟨[("r", [("alice", 7)])]⟩ : ConnectionManager).rooms "r" =
        some [("alice", 7)] →
      getKey? (disconnect ⟨[("r", [("alice", 7)])]⟩ 7 "r" "alice").rooms "r" = none) ∧
    (hasKey (⟨[("r", [("alice", 7)])]⟩ : ConnectionManager).rooms "r" = true →
      hasKey (broadcast ⟨[("r", [("alice", 7)])]⟩ "r" "hi"
        (fun _ => true)).1.rooms "r" = true) :=
  C3_room_lifecycle ⟨[("r", [("alice", 7)])]⟩ 7 7 "r" "alice" "hi" (fun _ => true)
    (by unfold noEmptyRooms; decide)

/-- Claim C4 counterexample: room `r` holds `alice` (websocket 1, dead) and
`bob` (websocket 2, live).  `broadcast_user_list` sends to `alice` first, the
send raises, and delivery aborts: `bob` receives nothing (empty effect list),
nobody is evicted, and the exception propagates (`some 1`) — contradicting
the claim that a send failure never aborts delivery of the structured
user_list broadcast to the remaining members. -/
theorem C4_counterexample :
    broadcast_user_list ⟨[("r", [("alice", 1), ("bob", 2)])]⟩ "r" (fun ws => ws == 2) =
      (⟨[("r", [("alice", 1), ("bob", 2)])]⟩, [], some 1) := rfl

/-- Claim C4 (amended): for the plain-text `broadcast`, a send failure on one
member never aborts delivery to the remaining members — every member whose
send succeeds receives the message — the failed member is deleted inline from
the room's member mapping (not via the `disconnect` path: the room entry is
kept even when emptied), and no synthetic "left" event is broadcast (every
effect is a send of the broadcast message itself).  The structured
`broadcast_user_list`, by contrast, has no per-member error handling: the
first failing send aborts delivery to all remaining members, evicts nobody,
and its exception propagates. -/
theorem C4_broadcast_failure_containment (m : ConnectionManager)
    (room message : String) (sendOk : Nat → Bool) (members : List (String × Nat))
    (hg : getKey? m.rooms room = some members) :
    (∀ p ∈ members, sendOk p.2 = true →
      Effect.send p.2 message ∈ (broadcast m room message sendOk).2) ∧
    (∀ p ∈ members, sendOk p.2 = false →
      memberConn (broadcast m room message sendOk).1 room p.1 = none) ∧
    (∀ e ∈ (broadcast m room message sendOk).2, ∃ ws, e = Effect.send ws message) ∧
    (∀ pre w post, members.map (fun p => p.2) = pre ++ w :: post →
      (∀ c ∈ pre, sendOk c = true) → sendOk w = false →
      broadcast_user_list m room sendOk =
        (m, pre.map fun c => Effect.sendUserList c (members.map fun p => p.1), some w)) := by
  refine ⟨?_, ?_, ?_, ?_⟩
  · intro p hp hok
    exact broadcast_delivers hg hp hok
  · intro p hp hbad
    exact broadcast_evicts hg hp hbad
  · intro e he
    exact broadcast_effects_are_sends he
  · intro pre w post hsplit hpre hw
    rw [broadcast_user_list_eq_present hg, hsplit,
      sendUserListAll_abort pre w post _ sendOk hpre hw]

/-- Claim C4 witness: the amended theorem on the two-member room of the
counterexample: `bob` still receives the plain-text broadcast although
`alice`'s send failed, `alice` is evicted, and the user_list broadcast
aborts at `alice` delivering nothing. -/
theorem C4_broadcast_failure_containment_witness :
    Effect.send 2 "hi" ∈
      (broadcast ⟨[("r", [("alice", 1), ("bob", 2)])]⟩ "r" "hi" (fun ws => ws == 2)).2 ∧
    memberConn (broadcast ⟨[("r", [("alice", 1), ("bob", 2)])]⟩ "r" "hi"
      (fun ws => ws == 2)).1 "r" "alice" = none ∧
    broadcast_user_list ⟨[("r", [("alice", 1), ("bob", 2)])]⟩ "r" (fun ws => ws == 2) =
      (⟨[("r", [("alice", 1), ("bob", 2)])]⟩, [], some 1) := by
  have h := C4_broadcast_failure_containment ⟨[("r", [("alice", 1), ("bob", 2)])]⟩
    "r" "hi" (fun ws => ws == 2) [("alice", 1), ("bob", 2)] rfl
  refine ⟨h.1 ("bob", 2) (by decide) rfl, h.2.1 ("alice", 1) (by decide) rfl, ?_⟩
  have h4 := h.2.2.2 [] 1 [2] rfl (fun c hc => absurd hc (List.not_mem_nil c)) rfl
  simpa using h4

/-- Claim C5 counterexample: `alice` is live in room `r`; a chat frame
arrives while the persistence collaborator fails (`saveOk = false`).
`save_message` raises before the broadcast on line 214 is reached: no member
receives the message (no effects at all) and the exception escapes the
receive loop, whose `try` only catches `WebSocketDisconnect` — contradicting
the claim that a persistence failure never blocks the broadcast and that the
handling loop does not crash. -/
theorem C5_counterexample :
    handleFrame ⟨[("r", [("alice", 1)])]⟩ "r" "alice" "hi" DecodeOutcome.decodeError
      false (fun _ => true) = (⟨[("r", [("alice", 1)])]⟩, [], true) := rfl

/-- Claim C5 (amended): on every chat-classified frame (decode failure,
non-object payload, or object without a recognized type), a failure of
`save_message` aborts the iteration before the chat broadcast: the state is
unchanged, no effect is produced — in particular the room's live members do
not receive the message — and the exception escapes the handling loop (its
`try` catches only `WebSocketDisconnect`). -/
theorem C5_save_failure_aborts (m : ConnectionManager)
    (room username message : String) (sendOk : Nat → Bool) :
    handleFrame m room username message DecodeOutcome.decodeError false sendOk =
      (m, [], true) ∧
    handleFrame m room username message DecodeOutcome.nonObject false sendOk =
      (m, [], true) ∧
    handleFrame m room username message (DecodeOutcome.object none) false sendOk =
      (m, [], true) :=
  ⟨rfl, rfl, rfl⟩

/-- Boolean test: the effect is a successful text send of exactly `msg`. -/
def isSendOf (msg : String) : Effect → Bool
  | Effect.send _ t => t == msg
  | _ => false

/-- Boolean test: the effect is a persistence call. -/
def isSave : Effect → Bool
  | Effect.save _ _ _ => true
  | _ => false

/-- Claim C6: a WebSocket admission attempt whose token is missing, empty,
fails verification, or verifies to a subject different from the claimed
username is closed with policy-violation code 1008 and mutates nothing: the
manager state is returned unchanged, no member is created and no broadcast
of any kind is emitted — the only effect is the close. -/
theorem C6_rejected_admission_closes_1008 (m : ConnectionManager) (ws : Nat)
    (token? : Option String) (jwtDecode : String → Option (Option String))
    (room username : String) (sendOk : Nat → Bool)
    (h : token? = none ∨ token? = some "" ∨
      ∀ t, token? = some t → decode_token jwtDecode t ≠ some username) :
    websocket_endpoint_start m ws token? jwtDecode room username sendOk =
      (m, [Effect.close ws 1008], none) := by
  rcases token? with _ | t
  · rfl
  · rcases h with h | h | h
    · cases h
    · injection h with h
      subst h
      rfl
    · have hd := h t rfl
      have hbeq : (decode_token jwtDecode t == some username) = false := by
        cases hdec : decode_token jwtDecode t == some username
        · rfl
        · exact absurd (eq_of_beq hdec) hd
      unfold websocket_endpoint_start
      rw [if_pos]
      simp [hbeq]

/-- Claim C6 witness: the spec's own example: `carol` presents a token whose
verified subject is `dave`; the connection is closed with 1008 and the empty
registry stays empty. -/
theorem C6_rejected_admission_closes_1008_witness :
    websocket_endpoint_start ⟨[]⟩ 5 (some "tok") (fun _ => some (some "dave"))
      "general" "carol" (fun _ => true) =
      ((⟨[]⟩ : ConnectionManager), [Effect.close 5 1008], none) :=
  C6_rejected_admission_closes_1008 ⟨[]⟩ 5 (some "tok") (fun _ => some (some "dave"))
    "general" "carol" (fun _ => true)
    (Or.inr (Or.inr fun t ht => by simp [decode_token]))

/-- Claim C7: a frame decoding to a JSON object with `type` `"typing"`
(resp. `"stop_typing"`) produces exactly the effects of one broadcast of the
typing (resp. stop-typing) payload carrying the member's username, every one
of those effects is a send of that payload (in particular zero persistence
calls), and the iteration ends without raising (the loop `continue`s to the
next frame). -/
theorem C7_typing_frames (m : ConnectionManager) (room username message : String)
    (saveOk : Bool) (sendOk : Nat → Bool) :
    handleFrame m room username message (DecodeOutcome.object (some "typing"))
        saveOk sendOk =
      ((broadcast m room (mkTypingMsg username) sendOk).1,
       (broadcast m room (mkTypingMsg username) sendOk).2, false) ∧
    handleFrame m room username message (DecodeOutcome.object (some "stop_typing"))
        saveOk sendOk =
      ((broadcast m room (mkStopTypingMsg username) sendOk).1,
       (broadcast m room (mkStopTypingMsg username) sendOk).2, false) ∧
    ((handleFrame m room username message (DecodeOutcome.object (some "typing"))
        saveOk sendOk).2.1.all (isSendOf (mkTypingMsg username))) = true ∧
    ((handleFrame m room username message (DecodeOutcome.object (some "stop_typing"))
        saveOk sendOk).2.1.all (isSendOf (mkStopTypingMsg username))) = true := by
  refine ⟨rfl, rfl, ?_, ?_⟩
  · rw [List.all_eq_true]
    intro e he
    obtain ⟨ws, rfl⟩ := broadcast_effects_are_sends
      (show e ∈ (broadcast m room (mkTypingMsg username) sendOk).2 from he)
    simp [isSendOf]
  · rw [List.all_eq_true]
    intro e he
    obtain ⟨ws, rfl⟩ := broadcast_effects_are_sends
      (show e ∈ (broadcast m room (mkStopTypingMsg username) sendOk).2 from he)
    simp [isSendOf]

/-- When every member's send succeeds, the broadcast loop produces one send
per member, in membership order. -/
theorem filterMap_sends_all_ok (members : List (String × Nat)) (message : String)
    (sendOk : Nat → Bool) (hall : ∀ p ∈ members, sendOk p.2 = true) :
    (members.filterMap fun p =>
      if sendOk p.2 then some (Effect.send p.2 message) else none) =
      members.map fun p => Effect.send p.2 message := by
  induction members with
  | nil => rfl
  | cons p tl ih =>
    rw [List.filterMap_cons, if_pos (hall p (List.mem_cons_self p tl)), List.map_cons,
      ih fun q hq => hall q (List.mem_cons_of_mem p hq)]

theorem broadcast_effects_all_ok {m : ConnectionManager} {room message : String}
    {sendOk : Nat → Bool} {members : List (String × Nat)}
    (hg : getKey? m.rooms room = some members)
    (hall : ∀ p ∈ members, sendOk p.2 = true) :
    (broadcast m room message sendOk).2 =
      members.map fun p => Effect.send p.2 message := by
  rw [broadcast_eq_present hg]
  exact filterMap_sends_all_ok members message sendOk hall

/-- Claim C8: a frame whose decode fails is handled as chat: exactly one
persistence call `save_message(room, username, frame)` is made (the filter of
the effects on persistence calls is that single record), followed by the
effects of exactly one chat broadcast; when every member's send succeeds the
effect list is literally the save followed by one send of
`"{username}: {frame}"` to every member, so every member of the room
receives that literal string; the iteration does not raise. -/
theorem C8_chat_frame (m : ConnectionManager) (room username message : String)
    (sendOk : Nat → Bool) (members : List (String × Nat))
    (hg : getKey? m.rooms room = some members)
    (hall : ∀ p ∈ members, sendOk p.2 = true) :
    handleFrame m room username message DecodeOutcome.decodeError true sendOk =
      ((broadcast m room (chatMsg username message) sendOk).1,
       Effect.save room username message ::
         (broadcast m room (chatMsg username message) sendOk).2, false) ∧
    ((handleFrame m room username message DecodeOutcome.decodeError true
        sendOk).2.1.filter isSave) = [Effect.save room username message] ∧
    (handleFrame m room username message DecodeOutcome.decodeError true sendOk).2.1 =
      Effect.save room username message ::
        members.map (fun p => Effect.send p.2 (chatMsg username message)) ∧
    ∀ p ∈ members, Effect.send p.2 (chatMsg username message) ∈
      (handleFrame m room username message DecodeOutcome.decodeError true sendOk).2.1 := by
  have heff : (handleFrame m room username message DecodeOutcome.decodeError true
      sendOk).2.1 =
      Effect.save room username message ::
        members.map (fun p => Effect.send p.2 (chatMsg username message)) := by
    show Effect.save room username message ::
        (broadcast m room (chatMsg username message) sendOk).2 = _
    rw [broadcast_effects_all_ok hg hall]
  refine ⟨rfl, ?_, heff, ?_⟩
  · rw [heff, List.filter_cons, if_pos (by simp [isSave])]
    rw [List.filter_eq_nil_iff.mpr ?_]
    intro e he
    obtain ⟨p, _, rfl⟩ := List.mem_map.mp he
    simp [isSave]
  · intro p hp
    rw [heff]
    exact List.mem_cons_of_mem _ (List.mem_map.mpr ⟨p, hp, rfl⟩)

/-- Claim C8 witness: room `r` with live members `alice` and `bob`; the
non-JSON frame `hello world` from `alice` yields exactly one persistence
record of the raw text and one chat broadcast delivering
`alice: hello world` to both members. -/
theorem C8_chat_frame_witness :
    (handleFrame ⟨[("r", [("alice", 1), ("bob", 2)])]⟩ "r" "alice" "hello world"
      DecodeOutcome.decodeError true (fun _ => true)).2.1 =
      [Effect.save "r" "alice" "hello world",
       Effect.send 1 (chatMsg "alice" "hello world"),
       Effect.send 2 (chatMsg "alice" "hello world")] := by
  have h := C8_chat_frame ⟨[("r", [("alice", 1), ("bob", 2)])]⟩ "r" "alice"
    "hello world" (fun _ => true) [("alice", 1), ("bob", 2)] rfl (fun p hp => rfl)
  simpa using h.2.2.1

/-- Claim C10: a frame that decodes to a non-object, or to an object whose
`type` is absent or neither `"typing"` nor `"stop_typing"`, is routed exactly
like a frame whose decode failed (the bare `except: pass` and the fallthrough
reach the same chat path), and that chat path performs one persistence record
of the raw frame text followed by one chat broadcast of
`"{username}: {frame}"`, without raising. -/
theorem C10_unrecognized_frames (m : ConnectionManager)
    (room username message : String) (saveOk : Bool) (sendOk : Nat → Bool)
    (t : String) (ht1 : t ≠ "typing") (ht2 : t ≠ "stop_typing") :
    handleFrame m room username message DecodeOutcome.nonObject saveOk sendOk =
      handleFrame m room username message DecodeOutcome.decodeError saveOk sendOk ∧
    handleFrame m room username message (DecodeOutcome.object none) saveOk sendOk =
      handleFrame m room username message DecodeOutcome.decodeError saveOk sendOk ∧
    handleFrame m room username message (DecodeOutcome.object (some t)) saveOk sendOk =
      handleFrame m room username message DecodeOutcome.decodeError saveOk sendOk ∧
    handleFrame m room username message DecodeOutcome.decodeError true sendOk =
      ((broadcast m room (chatMsg username message) sendOk).1,
       Effect.save room username message ::
         (broadcast m room (chatMsg username message) sendOk).2, false) := by
  refine ⟨rfl, rfl, ?_, rfl⟩
  unfold handleFrame
  simp [ht1, ht2]

/-- Claim C10 witness: the frame `{"type": "other"}` from `u` is handled
exactly like a non-JSON frame. -/
theorem C10_unrecognized_frames_witness :
    handleFrame ⟨[("r", [("u", 3)])]⟩ "r" "u" "hi"
      (DecodeOutcome.object (some "other")) true (fun _ => true) =
      handleFrame ⟨[("r", [("u", 3)])]⟩ "r" "u" "hi"
        DecodeOutcome.decodeError true (fun _ => true) :=
  (C10_unrecognized_frames ⟨[("r", [("u", 3)])]⟩ "r" "u" "hi" true (fun _ => true)
    "other" (by decide) (by decide)).2.2.1

/-- Every effect of the `broadcast_user_list` send loop is a user-list send. -/
theorem sendUserListAll_effects (conns : List Nat) (users : List String)
    (sendOk : Nat → Bool) {e : Effect}
    (he : e ∈ (sendUserListAll conns users sendOk).1) :
    ∃ ws, e = Effect.sendUserList ws users := by
  induction conns with
  | nil => cases he
  | cons c tl ih =>
    rw [sendUserListAll_cons] at he
    by_cases hc : sendOk c = true
    · rw [if_pos hc] at he
      rcases List.mem_cons.mp he with rfl | he
      · exact ⟨c, rfl⟩
      · exact ih he
    · rw [if_neg hc] at he
      cases he

/-- On a non-empty token whose decoded subject equals the claimed username,
`websocket_endpoint_start` runs the accept / join-broadcast / user-list
sequence. -/
theorem websocket_endpoint_start_accepted {m : ConnectionManager} {ws : Nat}
    {tok : String} {jwtDecode : String → Option (Option String)}
    {room username : String} {sendOk : Nat → Bool}
    (htok : tok ≠ "") (hdec : decode_token jwtDecode tok = some username) :
    websocket_endpoint_start m ws (some tok) jwtDecode room username sendOk =
      ((broadcast_user_list (broadcast (connect m ws room username).1 room
          (joinNotice username room) sendOk).1 room sendOk).1,
       (connect m ws room username).2 ++
         (broadcast (connect m ws room username).1 room
           (joinNotice username room) sendOk).2 ++
         (broadcast_user_list (broadcast (connect m ws room username).1 room
           (joinNotice username room) sendOk).1 room sendOk).2.1,
       (broadcast_user_list (broadcast (connect m ws room username).1 room
         (joinNotice username room) sendOk).1 room sendOk).2.2) := by
  unfold websocket_endpoint_start
  rw [if_neg]
  simp [htok, hdec]

/-- Claim C9 counterexample: a successful admission of `alice` to room
`general` broadcasts the join notice with a leading four-character status
marker (the source's literal), not the plain string
`"alice joined room: general"`; the leave notice likewise differs from the
plain string the claim asserts. -/
theorem C9_counterexample :
    (websocket_endpoint_start ⟨[]⟩ 5 (some "tok") (fun _ => some (some "alice"))
      "general" "alice" (fun _ => true)).2.1 =
      [Effect.accept 5, Effect.send 5 (joinNotice "alice" "general"),
       Effect.sendUserList 5 ["alice"]] ∧
    joinNotice "alice" "general" ≠ "alice joined room: general" ∧
    leaveNotice "alice" "general" ≠ "alice left room: general" :=
  ⟨rfl, by decide, by decide⟩

/-- Claim C9 (amended): the join and leave notices are the marker-prefixed
strings `"ðŸŸ¢ {username} joined room: {room}"` and
`"ðŸ”´ {username} left room: {room}"` (four marker characters and a space
before the plain text; the markers are the source file's literal characters
U+00F0 U+0178 U+0178 U+00A2 and U+00F0 U+0178 U+201D U+00B4), while chat
notices are exactly `"{username}: {text}"` with no decoration; every text
send the disconnect handler emits carries exactly the leave notice, and on a
successful admission every text send the endpoint emits carries exactly the
join notice. -/
theorem C9_notice_formats (m : ConnectionManager) (ws : Nat)
    (room username text tok : String)
    (jwtDecode : String → Option (Option String)) (sendOk : Nat → Bool) :
    joinNotice username room =
      "ðŸŸ¢ " ++ (username ++ " joined room: " ++ room) ∧
    leaveNotice username room =
      "ðŸ”´ " ++ (username ++ " left room: " ++ room) ∧
    chatMsg username text = username ++ ": " ++ text ∧
    ((websocket_endpoint_on_disconnect m ws room username sendOk).2.1.all
      fun e => match e with
        | Effect.send _ s => s == leaveNotice username room
        | _ => true) = true ∧
    (tok ≠ "" → decode_token jwtDecode tok = some username →
      ((websocket_endpoint_start m ws (some tok) jwtDecode room username
          sendOk).2.1.all
        fun e => match e with
          | Effect.send _ s => s == joinNotice username room
          | _ => true) = true) := by
  refine ⟨?_, ?_, rfl, ?_, ?_⟩
  · unfold joinNotice
    simp [String.append_assoc]
  · unfold leaveNotice
    simp [String.append_assoc]
  · rw [List.all_eq_true]
    intro e he
    have he2 : e ∈ (broadcast (disconnect m ws room username) room
        (leaveNotice username room) sendOk).2 ++
        (broadcast_user_list (broadcast (disconnect m ws room username) room
          (leaveNotice username room) sendOk).1 room sendOk).2.1 := he
    rcases List.mem_append.mp he2 with he3 | he3
    · obtain ⟨w, rfl⟩ := broadcast_effects_are_sends he3
      simp
    · rcases hu : getKey? (broadcast (disconnect m ws room username) room
          (leaveNotice username room) sendOk).1.rooms room with _ | mem
      · rw [broadcast_user_list_eq_absent hu] at he3
        cases he3
      · rw [broadcast_user_list_eq_present hu] at he3
        obtain ⟨w, rfl⟩ := sendUserListAll_effects _ _ _ he3
        rfl
  · intro htok hdec
    rw [List.all_eq_true]
    intro e he
    rw [websocket_endpoint_start_accepted htok hdec] at he
    rcases List.mem_append.mp he with he3 | he3
    · rcases List.mem_append.mp he3 with he4 | he4
      · rcases List.mem_singleton.mp he4 with rfl
        rfl
      · obtain ⟨w, rfl⟩ := broadcast_effects_are_sends he4
        simp
    · rcases hu : getKey? (broadcast (connect m ws room username).1 room
          (joinNotice username room) sendOk).1.rooms room with _ | mem
      · rw [broadcast_user_list_eq_absent hu] at he3
        cases he3
      · rw [broadcast_user_list_eq_present hu] at he3
        obtain ⟨w, rfl⟩ := sendUserListAll_effects _ _ _ he3
        rfl

/-- Claim C9 witness: the amended format facts at `alice` in `general`, with
the disconnect handler run on a room where `bob` remains and the admission
run with a token decoding to `alice`. -/
theorem C9_notice_formats_witness :
    joinNotice "alice" "general" =
      "ðŸŸ¢ " ++ ("alice" ++ " joined room: " ++ "general") ∧
    leaveNotice "alice" "general" =
      "ðŸ”´ " ++ ("alice" ++ " left room: " ++ "general") ∧
    ((websocket_endpoint_on_disconnect ⟨[("general", [("alice", 1), ("bob", 2)])]⟩ 1
        "general" "alice" (fun _ => true)).2.1.all
      fun e => match e with
        | Effect.send _ s => s == leaveNotice "alice" "general"
        | _ => true) = true ∧
    ((websocket_endpoint_start ⟨[("general", [("alice", 1), ("bob", 2)])]⟩ 1
        (some "tok") (fun _ => some (some "alice")) "general" "alice"
        (fun _ => true)).2.1.all
      fun e => match e with
        | Effect.send _ s => s == joinNotice "alice" "general"
        | _ => true) = true := by
  have h := C9_notice_formats ⟨[("general", [("alice", 1), ("bob", 2)])]⟩ 1 "general"
    "alice" "hi" "tok" (fun _ => some (some "alice")) (fun _ => true)
  exact ⟨h.1, h.2.1, h.2.2.2.1, h.2.2.2.2 (by decide) rfl⟩

end ChatBox
